import Mathlib

/-!
Verification development for the Kafka topic and Kafka ACL resource modules of
the terraform-provider-confluent repository.  Go strings are embedded as lists
of characters, Go maps over strings as association lists, and the remote REST
API as explicit parameters carrying the responses each call would return.
-/

namespace ConfluentProvider

/-- Go strings, embedded as lists of characters. -/
abbrev GoStr := List Char

deriving instance DecidableEq for Except

/-- Embedding of Go strings.Split with a one-character separator: splits on
every occurrence of the separator, keeping empty parts, and returns the single
part list for the empty string. -/
def goSplit (sep : Char) : List Char → List (List Char)
  | [] => [[]]
  | c :: cs =>
    if c = sep then [] :: goSplit sep cs
    else
      match goSplit sep cs with
      | [] => [[c]]
      | r :: rs => (c :: r) :: rs

/-- Embedding of Go strings.Join with a one-character separator. -/
def goJoin (sep : Char) : List (List Char) → List Char
  | [] => []
  | [p] => p
  | p :: q :: rs => p ++ sep :: goJoin sep (q :: rs)

/-- Lookup in an association list embedding a Go map over strings. -/
def lookupMap : List (GoStr × GoStr) → GoStr → Option GoStr
  | [], _ => none
  | (k, v) :: rest, key => if k = key then some v else lookupMap rest key

/-- A Go map from topic-setting names to values, as an association list. -/
abbrev SettingsMap := List (GoStr × GoStr)

/-- Schema field name for the credentials block. -/
def paramCredentials : GoStr := "credentials".toList

/-- Schema field name for the topic configuration map. -/
def paramConfigs : GoStr := "config".toList

/-- Embedding of ResourceData.HasChangesExcept: the set of changed top-level
fields is given as a list, and the call is true when some changed field is
outside the exception list. -/
def hasChangesExcept (changedFields exceptions : List GoStr) : Bool :=
  changedFields.any (fun f => !(exceptions.contains f))

/-- Embedding of ResourceData.HasChange for a single field. -/
def hasChange (changedFields : List GoStr) (f : GoStr) : Bool :=
  changedFields.contains f

/-- The allow-list of editable topic settings (resource_kafka_topic.go lines
46-48). -/
def editableTopicSettings : List GoStr :=
  ["delete.retention.ms".toList, "max.message.bytes".toList, "max.compaction.lag.ms".toList,
   "message.timestamp.difference.max.ms".toList, "message.timestamp.type".toList,
   "min.compaction.lag.ms".toList, "min.insync.replicas".toList,
   "retention.bytes".toList, "retention.ms".toList, "segment.bytes".toList, "segment.ms".toList]

/-- Modelled from the spec: the repository utility stringInSlice (declared
outside src/) tests membership of a string in a list; every call site in src/
passes ignoreCase = false, so the case-insensitive branch maps both sides
through lowercase. -/
def stringInSlice (target : GoStr) (list : List GoStr) (ignoreCase : Bool) : Bool :=
  if ignoreCase then
    list.any (fun s => s.map Char.toLower = target.map Char.toLower)
  else
    list.contains target

/-- The Source field of a remote config entry, from the kafkarest SDK
ConfigSource enumeration. -/
inductive ConfigSource where
  | DEFAULT_CONFIG
  | DYNAMIC_TOPIC_CONFIG
  | DYNAMIC_BROKER_CONFIG
  | DYNAMIC_DEFAULT_BROKER_CONFIG
  | DYNAMIC_BROKER_LOGGER_CONFIG
  | STATIC_BROKER_CONFIG
  | UNKNOWN
deriving Repr, DecidableEq

/-- A remote topic config entry as returned by ListKafkaV3TopicConfigs: a
name, an optional value (nil pointer embedded as none), and a source. -/
structure TopicConfigData where
  name : GoStr
  value : Option GoStr
  source : ConfigSource
deriving Repr, DecidableEq

/-- Assignment m[k] = v on a Go map embedded as an association list: replace
the value when the key is present, append the pair otherwise. -/
def goMapInsert (m : SettingsMap) (k v : GoStr) : SettingsMap :=
  if (lookupMap m k).isSome then
    m.map (fun p => if p.1 = k then (k, v) else p)
  else
    m ++ [(k, v)]

/-- The loop body of loadTopicConfigs (resource_kafka_topic.go lines 484-489):
keep a remote entry only when its source is DYNAMIC_TOPIC_CONFIG and its value
is non-nil. -/
def configMapStep (m : SettingsMap) (e : TopicConfigData) : SettingsMap :=
  if e.source = ConfigSource.DYNAMIC_TOPIC_CONFIG ∧ e.value.isSome then
    goMapInsert m e.name (e.value.getD [])
  else m

/-- The config-map loop of loadTopicConfigs (resource_kafka_topic.go lines
483-489). -/
def buildConfigMap (entries : List TopicConfigData) : SettingsMap :=
  entries.foldl configMapStep []

/-- Embedding of loadTopicConfigs: the ListKafkaV3TopicConfigs response is a
parameter; on success the config map is built from the entries. -/
def loadTopicConfigs (listResult : Except Unit (List TopicConfigData)) :
    Except Unit SettingsMap :=
  listResult.map buildConfigMap

/-- The validation loop of kafkaTopicUpdate (resource_kafka_topic.go lines
385-401): walk the new settings; a setting is updated when it is absent from
the old map or carries a different value there; an updated setting must be in
the allow-list, otherwise the loop stops with that setting's name; the batch
collects the updated settings with their new values in iteration order. -/
def buildTopicSettingsUpdateBatch (old : SettingsMap) : SettingsMap → Except GoStr SettingsMap
  | [] => .ok []
  | (n, v) :: rest =>
    if lookupMap old n = some v then
      buildTopicSettingsUpdateBatch old rest
    else if stringInSlice n editableTopicSettings false then
      match buildTopicSettingsUpdateBatch old rest with
      | .ok b => .ok ((n, v) :: b)
      | .error e => .error e
    else
      .error n

/-- Which diag.Errorf call of kafkaTopicUpdate produced the returned
diagnostics. -/
inductive TopicUpdateErr where
  | nonUpdatableField
  | removalNotSupported
  | readOnlySetting (name : GoStr)
  | remoteUpdateFailed
  | rereadFailed
deriving Repr, DecidableEq

/-- Remote responses consumed by kafkaTopicUpdate: whether the batch-update
call succeeds, and the ListKafkaV3TopicConfigs response used by the re-read. -/
structure TopicUpdateEnv where
  updateSucceeds : Bool
  rereadConfigs : Except Unit (List TopicConfigData)
deriving Repr

/-- Observable outcome of kafkaTopicUpdate: the diagnostics returned (none is
success), whether the remote batch-update call was issued, the batch it was
issued with, and the divergent settings found by the re-read. -/
structure TopicUpdateTrace where
  diagErr : Option TopicUpdateErr
  remoteMutationCalled : Bool
  submittedBatch : SettingsMap
  outdatedTopicSettings : List GoStr
deriving Repr, DecidableEq

/-- Embedding of kafkaTopicUpdate (resource_kafka_topic.go lines 355-461).
The changed top-level schema fields and the old and new config maps from
GetChange are parameters.  Note the source computes a diagnostic with
diag.Errorf when outdatedTopicSettings is non-empty (lines 450-453) but
discards its result instead of returning it, so that path still returns nil
diagnostics; the embedding reproduces that behaviour. -/
def kafkaTopicUpdate (changedFields : List GoStr) (old new : SettingsMap)
    (env : TopicUpdateEnv) : TopicUpdateTrace :=
  if hasChangesExcept changedFields [paramCredentials, paramConfigs] then
    ⟨some .nonUpdatableField, false, [], []⟩
  else if hasChange changedFields paramConfigs then
    if old.any (fun p => (lookupMap new p.1).isNone) then
      ⟨some .removalNotSupported, false, [], []⟩
    else
      match buildTopicSettingsUpdateBatch old new with
      | .error n => ⟨some (.readOnlySetting n), false, [], []⟩
      | .ok batch =>
        if env.updateSucceeds then
          match loadTopicConfigs env.rereadConfigs with
          | .error _ => ⟨some .rereadFailed, true, batch, []⟩
          | .ok actual =>
            let outdated :=
              (batch.filter (fun p =>
                match lookupMap actual p.1 with
                | some a => decide (a ≠ p.2)
                | none => false)).map Prod.fst
            ⟨none, true, batch, outdated⟩
        else
          ⟨some .remoteUpdateFailed, true, batch, []⟩
  else
    ⟨none, false, [], []⟩

/-- Embedding of createKafkaTopicId: clusterId/topicName. -/
def createKafkaTopicId (clusterId topicName : GoStr) : GoStr :=
  clusterId ++ '/' :: topicName

/-- The identifier-parsing step of kafkaTopicImport (resource_kafka_topic.go
lines 286-293), after the environment-variable check: split the id on the
slash and require exactly two parts. -/
def kafkaTopicImportParse (id : GoStr) : Except Unit (GoStr × GoStr) :=
  let parts := goSplit '/' id
  if parts.length = 2 then .ok (parts.getD 0 [], parts.getD 1 [])
  else .error ()

/-- The topic data returned by GetKafkaV3Topic, restricted to the fields the
resource reads back. -/
structure TopicData where
  topicName : GoStr
  partitionsCount : Nat
deriving Repr, DecidableEq

/-- Which error readTopicAndSetAttributes returned. -/
inductive TopicReadErr where
  | fetchFailed (status : Option Nat)
  | configsLoadFailed
deriving Repr, DecidableEq

/-- Observable outcome of readTopicAndSetAttributes: the error returned (none
is success), whether SetId("") cleared the id, the id finally stored, and the
config map written to state. -/
structure TopicReadTrace where
  err : Option TopicReadErr
  idCleared : Bool
  finalId : Option GoStr
  stateConfigs : Option SettingsMap
deriving Repr, DecidableEq

/-- Embedding of readTopicAndSetAttributes (resource_kafka_topic.go lines
306-353).  The GetKafkaV3Topic response is a parameter: on error it carries
the HTTP status of the response when there is one (the repository helper
ResponseHasExpectedStatusCode, declared outside src/, is modelled from the
spec as comparing that status to 404).  A 404 on a resource that is not newly
created clears the id and succeeds; otherwise the fetch error is returned. -/
def readTopicAndSetAttributes (clusterId topicName : GoStr) (isNew : Bool)
    (fetch : Except (Option Nat) TopicData)
    (configsList : Except Unit (List TopicConfigData)) : TopicReadTrace :=
  match fetch with
  | .error status =>
    if status = some 404 ∧ isNew = false then
      ⟨none, true, none, none⟩
    else
      ⟨some (.fetchFailed status), false, none, none⟩
  | .ok _ =>
    match loadTopicConfigs configsList with
    | .error _ => ⟨some .configsLoadFailed, false, none, none⟩
    | .ok cfgs => ⟨none, false, some (createKafkaTopicId clusterId topicName), some cfgs⟩

/-- Accepted ACL resource types (ACL resource file line 45). -/
def acceptedResourceTypes : List GoStr :=
  ["UNKNOWN".toList, "ANY".toList, "TOPIC".toList, "GROUP".toList, "CLUSTER".toList,
   "TRANSACTIONAL_ID".toList, "DELEGATION_TOKEN".toList]

/-- Accepted ACL pattern types (line 46). -/
def acceptedPatternTypes : List GoStr :=
  ["UNKNOWN".toList, "ANY".toList, "MATCH".toList, "LITERAL".toList, "PREFIXED".toList]

/-- Accepted ACL operations (line 47). -/
def acceptedOperations : List GoStr :=
  ["UNKNOWN".toList, "ANY".toList, "ALL".toList, "READ".toList, "WRITE".toList,
   "CREATE".toList, "DELETE".toList, "ALTER".toList, "DESCRIBE".toList,
   "CLUSTER_ACTION".toList, "DESCRIBE_CONFIGS".toList, "ALTER_CONFIGS".toList,
   "IDEMPOTENT_WRITE".toList]

/-- Accepted ACL permissions (line 48). -/
def acceptedPermissions : List GoStr :=
  ["UNKNOWN".toList, "ANY".toList, "DENY".toList, "ALLOW".toList]

/-- The Acl seven-tuple.  The SDK enumeration types AclResourceType,
AclPatternType, AclOperation and AclPermission are string newtypes, so the
fields are embedded as strings. -/
structure Acl where
  resourceType : GoStr
  resourceName : GoStr
  patternType : GoStr
  principal : GoStr
  host : GoStr
  operation : GoStr
  permission : GoStr
deriving Repr, DecidableEq

/-- Modelled from the spec: the repository helpers stringToAclResourceType,
stringToAclPatternType, stringToAclOperation and stringToAclPermission
(declared outside src/) map exactly the accepted enumeration strings to the
SDK enumeration values, which are string newtypes with the same spelling, and
fail on any other string.  aclEnumsAccepted is true exactly when all four
conversions of extractAcl succeed. -/
def aclEnumsAccepted (a : Acl) : Bool :=
  acceptedResourceTypes.contains a.resourceType &&
  acceptedPatternTypes.contains a.patternType &&
  acceptedOperations.contains a.operation &&
  acceptedPermissions.contains a.permission

/-- Embedding of extractAcl (ACL resource file lines 50-76): validate the four
enumeration fields and return the seven-tuple. -/
def extractAcl (a : Acl) : Except Unit Acl :=
  if aclEnumsAccepted a then .ok a else .error ()

/-- The hash-joined seven-tuple of createKafkaAclId (strings.Join of the seven
fields with the hash separator). -/
def serializeAclTuple (a : Acl) : GoStr :=
  goJoin '#' [a.resourceType, a.resourceName, a.patternType, a.principal,
              a.host, a.operation, a.permission]

/-- Embedding of createKafkaAclId (ACL resource file lines 284-294). -/
def createKafkaAclId (clusterId : GoStr) (a : Acl) : GoStr :=
  clusterId ++ '/' :: serializeAclTuple a

/-- Which error deserializeAcl returned. -/
inductive AclImportErr where
  | invalidFormat
  | invalidEnumValue
deriving Repr, DecidableEq

/-- Embedding of deserializeAcl (ACL resource file lines 411-443): split on
the hash separator, require exactly seven parts, validate the enumeration
parts in source order, and rebuild the seven-tuple. -/
def deserializeAcl (s : GoStr) : Except AclImportErr Acl :=
  let parts := goSplit '#' s
  if parts.length = 7 then
    let rt := parts.getD 0 []
    let rn := parts.getD 1 []
    let pt := parts.getD 2 []
    let pr := parts.getD 3 []
    let ho := parts.getD 4 []
    let op := parts.getD 5 []
    let pm := parts.getD 6 []
    if acceptedResourceTypes.contains rt then
      if acceptedPatternTypes.contains pt then
        if acceptedOperations.contains op then
          if acceptedPermissions.contains pm then
            .ok ⟨rt, rn, pt, pr, ho, op, pm⟩
          else .error .invalidEnumValue
        else .error .invalidEnumValue
      else .error .invalidEnumValue
    else .error .invalidEnumValue
  else .error .invalidFormat

/-- A remote ACL entry returned by GetKafkaV3Acls; its principal carries the
server-side integer-id form. -/
structure RemoteAclData where
  resourceType : GoStr
  resourceName : GoStr
  patternType : GoStr
  principal : GoStr
  host : GoStr
  operation : GoStr
  permission : GoStr
deriving Repr, DecidableEq

/-- Which error the ACL read path returned. -/
inductive AclReadErr where
  | invalidEnumValue
  | principalConversionFailed
  | fetchFailed (status : Option Nat)
  | noAclsMatched
  | multipleAclsMatched
deriving Repr, DecidableEq

/-- Observable outcome of the ACL read path: the error returned (none is
success), whether SetId("") cleared the id, whether any remote call was
issued, whether the matched ACL's attributes were written to state, the
principal written to state, and the id finally stored. -/
structure AclReadTrace where
  err : Option AclReadErr
  idCleared : Bool
  remoteCalled : Bool
  attributesSet : Bool
  storedPrincipal : Option GoStr
  finalId : Option GoStr
deriving Repr, DecidableEq

/-- Embedding of readAclAndSetAttributes (ACL resource file lines 296-373).
The principal conversion principalWithResourceIdToPrincipalWithIntegerId is a
remote control-plane call declared outside src/; its result is a parameter,
as is the GetKafkaV3Acls response (on error carrying the HTTP status, against
which ResponseHasExpectedStatusCode is modelled as a comparison to 404).
Exactly one matched ACL is required; the principal written to state is the
request's resource-id form (line 352), not the matched entry's principal. -/
def readAclAndSetAttributes (clusterId : GoStr) (acl : Acl) (isNew : Bool)
    (principalConv : Except Unit GoStr)
    (listAcls : Except (Option Nat) (List RemoteAclData)) : AclReadTrace :=
  match principalConv with
  | .error _ => ⟨some .principalConversionFailed, false, true, false, none, none⟩
  | .ok _ =>
    match listAcls with
    | .error status =>
      if status = some 404 ∧ isNew = false then
        ⟨none, true, true, false, none, none⟩
      else
        ⟨some (.fetchFailed status), false, true, false, none, none⟩
    | .ok acls =>
      if acls.length = 0 then
        ⟨some .noAclsMatched, false, true, false, none, none⟩
      else if acls.length > 1 then
        ⟨some .multipleAclsMatched, false, true, false, none, none⟩
      else
        ⟨none, false, true, true, some acl.principal,
         some (createKafkaAclId clusterId acl)⟩

/-- Whether the principal uses the human-readable resource-id form accepted
since provider v0.4.0 (ACL resource file line 272). -/
def principalUsesResourceId (principal : GoStr) : Bool :=
  "User:sa-".toList.isPrefixOf principal || "User:u-".toList.isPrefixOf principal

/-- Embedding of kafkaAclRead (ACL resource file lines 254-282): extract the
ACL from state; when the principal is not in resource-id form, clear the id
and succeed without any remote call; otherwise delegate to
readAclAndSetAttributes. -/
def kafkaAclRead (clusterId : GoStr) (acl : Acl) (isNew : Bool)
    (principalConv : Except Unit GoStr)
    (listAcls : Except (Option Nat) (List RemoteAclData)) : AclReadTrace :=
  match extractAcl acl with
  | .error _ => ⟨some .invalidEnumValue, false, false, false, none, none⟩
  | .ok a =>
    if principalUsesResourceId a.principal then
      readAclAndSetAttributes clusterId a isNew principalConv listAcls
    else
      ⟨none, true, false, false, none, none⟩

/-- Which error kafkaAclUpdate returned. -/
inductive AclUpdateErr where
  | nonUpdatableField
  | readErr (e : AclReadErr)
deriving Repr, DecidableEq

/-- Observable outcome of kafkaAclUpdate. -/
structure AclUpdateTrace where
  diagErr : Option AclUpdateErr
  remoteCalled : Bool
deriving Repr, DecidableEq

/-- Embedding of kafkaAclUpdate (ACL resource file lines 445-450): reject any
change outside the credentials block before any remote call, otherwise run
kafkaAclRead.  No path issues a remote mutation. -/
def kafkaAclUpdate (changedFields : List GoStr) (clusterId : GoStr) (acl : Acl)
    (isNew : Bool) (principalConv : Except Unit GoStr)
    (listAcls : Except (Option Nat) (List RemoteAclData)) : AclUpdateTrace :=
  if hasChangesExcept changedFields [paramCredentials] then
    ⟨some .nonUpdatableField, false⟩
  else
    let r := kafkaAclRead clusterId acl isNew principalConv listAcls
    ⟨r.err.map .readErr, r.remoteCalled⟩

/-! ## String split and join lemmas -/

theorem goSplit_nil (sep : Char) : goSplit sep [] = [[]] := rfl

theorem goSplit_no_sep (sep : Char) (b : List Char) (h : sep ∉ b) :
    goSplit sep b = [b] := by
  induction b with
  | nil => rfl
  | cons c cs ih =>
    have hc : ¬ c = sep := by
      intro heq
      exact h (heq ▸ List.mem_cons_self c cs)
    have hcs : sep ∉ cs := fun hm => h (List.mem_cons_of_mem _ hm)
    rw [goSplit, if_neg hc, ih hcs]

theorem goSplit_append (sep : Char) (a b : List Char) (h : sep ∉ a) :
    goSplit sep (a ++ sep :: b) = a :: goSplit sep b := by
  induction a with
  | nil =>
    simp [goSplit]
  | cons c cs ih =>
    have hc : ¬ c = sep := by
      intro heq
      exact h (heq ▸ List.mem_cons_self c cs)
    have hcs : sep ∉ cs := fun hm => h (List.mem_cons_of_mem _ hm)
    rw [List.cons_append, goSplit, if_neg hc, ih hcs]

theorem goSplit_goJoin (sep : Char) :
    ∀ ps : List (List Char), ps ≠ [] → (∀ p ∈ ps, sep ∉ p) →
      goSplit sep (goJoin sep ps) = ps
  | [], hne, _ => absurd rfl hne
  | [p], _, h => by
    rw [goJoin, goSplit_no_sep sep p (h p (List.mem_singleton.mpr rfl))]
  | p :: q :: rs, _, h => by
    rw [goJoin, goSplit_append sep p _ (h p (List.mem_cons_self _ _)),
      goSplit_goJoin sep (q :: rs) (List.cons_ne_nil q rs)
        (fun x hx => h x (List.mem_cons_of_mem _ hx))]

/-! ## Association-list lemmas -/

theorem lookupMap_append_right (a b : SettingsMap) (k : GoStr)
    (h : lookupMap a k = none) : lookupMap (a ++ b) k = lookupMap b k := by
  induction a with
  | nil => rfl
  | cons p rest ih =>
    obtain ⟨pk, pv⟩ := p
    by_cases hk : pk = k
    · rw [lookupMap, if_pos hk] at h
      exact absurd h (by simp)
    · rw [List.cons_append, lookupMap, if_neg hk]
      rw [lookupMap, if_neg hk] at h
      exact ih h

theorem lookupMap_singleton_ne (k n v : GoStr) (h : ¬ n = k) :
    lookupMap [(n, v)] k = none := by
  rw [lookupMap, if_neg h]
  rfl

/-! ## Update-batch lemmas -/

/-- A setting of the new map counts as updated when the old map does not hold
it with the same value. -/
def topicSettingChanged (old : SettingsMap) (p : GoStr × GoStr) : Bool :=
  !decide (lookupMap old p.1 = some p.2)

theorem buildTopicSettingsUpdateBatch_ok (old : SettingsMap) :
    ∀ new : SettingsMap,
      (∀ p ∈ new, topicSettingChanged old p = true →
        stringInSlice p.1 editableTopicSettings false = true) →
      buildTopicSettingsUpdateBatch old new =
        .ok (new.filter (topicSettingChanged old)) := by
  intro new
  induction new with
  | nil => intro _; rfl
  | cons p rest ih =>
    intro h
    obtain ⟨n, v⟩ := p
    by_cases hch : lookupMap old n = some v
    · rw [buildTopicSettingsUpdateBatch, if_pos hch,
        ih (fun q hq hc => h q (List.mem_cons_of_mem _ hq) hc)]
      have : topicSettingChanged old (n, v) = false := by
        simp [topicSettingChanged, hch]
      rw [List.filter_cons_of_neg (by simp [this])]
    · have hchb : topicSettingChanged old (n, v) = true := by
        simp [topicSettingChanged, hch]
      have hed := h (n, v) (List.mem_cons_self _ _) hchb
      rw [buildTopicSettingsUpdateBatch, if_neg hch, if_pos hed,
        ih (fun q hq hc => h q (List.mem_cons_of_mem _ hq) hc)]
      rw [List.filter_cons_of_pos (by simp [hchb])]

theorem buildTopicSettingsUpdateBatch_error (old : SettingsMap) :
    ∀ new : SettingsMap,
      (∃ p ∈ new, topicSettingChanged old p = true ∧
        stringInSlice p.1 editableTopicSettings false = false) →
      ∃ n, buildTopicSettingsUpdateBatch old new = .error n := by
  intro new
  induction new with
  | nil => rintro ⟨p, hp, _⟩; exact absurd hp (List.not_mem_nil p)
  | cons q rest ih =>
    rintro ⟨p, hp, hch, hed⟩
    obtain ⟨n, v⟩ := q
    rcases List.mem_cons.mp hp with hhead | htail
    · subst hhead
      have hne : ¬ lookupMap old n = some v := by
        simpa [topicSettingChanged] using hch
      rw [buildTopicSettingsUpdateBatch, if_neg hne, if_neg (by simp [hed])]
      exact ⟨n, rfl⟩
    · obtain ⟨m, hm⟩ := ih ⟨p, htail, hch, hed⟩
      by_cases h0 : lookupMap old n = some v
      · rw [buildTopicSettingsUpdateBatch, if_pos h0, hm]
        exact ⟨m, rfl⟩
      · by_cases h1 : stringInSlice n editableTopicSettings false
        · rw [buildTopicSettingsUpdateBatch, if_neg h0, if_pos h1, hm]
          exact ⟨m, rfl⟩
        · rw [buildTopicSettingsUpdateBatch, if_neg h0, if_neg h1]
          exact ⟨n, rfl⟩

/-! ## Config-map lemmas -/

/-- The pair a remote config entry contributes to the state config map, when
it contributes one. -/
def dynamicEntryPair (e : TopicConfigData) : Option (GoStr × GoStr) :=
  if e.source = ConfigSource.DYNAMIC_TOPIC_CONFIG then
    e.value.map (fun v => (e.name, v))
  else none

theorem goMapInsert_absent (m : SettingsMap) (k v : GoStr)
    (h : lookupMap m k = none) : goMapInsert m k v = m ++ [(k, v)] := by
  simp [goMapInsert, h]

theorem foldl_configMapStep (entries : List TopicConfigData) :
    ∀ acc : SettingsMap,
      (entries.map TopicConfigData.name).Nodup →
      (∀ e ∈ entries, lookupMap acc e.name = none) →
      entries.foldl configMapStep acc = acc ++ entries.filterMap dynamicEntryPair := by
  induction entries with
  | nil => intro acc _ _; simp
  | cons e rest ih =>
    intro acc hnd hacc
    rw [List.map_cons, List.nodup_cons] at hnd
    obtain ⟨hname, hndr⟩ := hnd
    rw [List.foldl_cons]
    by_cases hkeep : e.source = ConfigSource.DYNAMIC_TOPIC_CONFIG ∧ e.value.isSome
    · obtain ⟨vv, hv⟩ := Option.isSome_iff_exists.mp hkeep.2
      have hstep : configMapStep acc e = acc ++ [(e.name, vv)] := by
        rw [configMapStep, if_pos hkeep,
          goMapInsert_absent _ _ _ (hacc e (List.mem_cons_self _ _)), hv]
        rfl
      have hrest : ∀ e2 ∈ rest, lookupMap (configMapStep acc e) e2.name = none := by
        intro e2 he2
        rw [hstep,
          lookupMap_append_right _ _ _ (hacc e2 (List.mem_cons_of_mem _ he2))]
        refine lookupMap_singleton_ne _ _ _ (fun heq => hname ?_)
        exact heq ▸ List.mem_map_of_mem TopicConfigData.name he2
      rw [ih (configMapStep acc e) hndr hrest, hstep]
      have hpair : dynamicEntryPair e = some (e.name, vv) := by
        simp [dynamicEntryPair, hkeep.1, hv]
      rw [List.filterMap_cons_some hpair, List.append_assoc]
      rfl
    · have hstep : configMapStep acc e = acc := by
        rw [configMapStep, if_neg hkeep]
      have hpair : dynamicEntryPair e = none := by
        rcases Decidable.not_and_iff_or_not.mp hkeep with hs | hval
        · simp [dynamicEntryPair, hs]
        · have : e.value = none := by
            cases hval2 : e.value with
            | none => rfl
            | some v => rw [hval2] at hval; exact absurd rfl hval
          simp [dynamicEntryPair, this]
      rw [hstep, List.filterMap_cons_none hpair,
        ih acc hndr (fun e2 he2 => hacc e2 (List.mem_cons_of_mem _ he2))]

theorem lookupMap_filterMap_dynamic (entries : List TopicConfigData)
    (hnd : (entries.map TopicConfigData.name).Nodup) (n v : GoStr) :
    lookupMap (entries.filterMap dynamicEntryPair) n = some v ↔
      ∃ e ∈ entries, e.name = n ∧
        e.source = ConfigSource.DYNAMIC_TOPIC_CONFIG ∧ e.value = some v := by
  induction entries with
  | nil => simp [lookupMap]
  | cons e rest ih =>
    rw [List.map_cons, List.nodup_cons] at hnd
    obtain ⟨hname, hndr⟩ := hnd
    cases hpair : dynamicEntryPair e with
    | none =>
      rw [List.filterMap_cons_none hpair, ih hndr]
      constructor
      · rintro ⟨e2, he2, hrest⟩
        exact ⟨e2, List.mem_cons_of_mem _ he2, hrest⟩
      · rintro ⟨e2, he2, hn, hs, hv⟩
        rcases List.mem_cons.mp he2 with hhead | htail
        · subst hhead
          rw [dynamicEntryPair, if_pos hs, hv] at hpair
          exact absurd hpair (by simp)
        · exact ⟨e2, htail, hn, hs, hv⟩
    | some p =>
      have hsrc : e.source = ConfigSource.DYNAMIC_TOPIC_CONFIG := by
        by_contra hs
        rw [dynamicEntryPair, if_neg hs] at hpair
        exact absurd hpair (by simp)
      obtain ⟨vv, hv⟩ : ∃ vv, e.value = some vv := by
        cases hval : e.value with
        | none => rw [dynamicEntryPair, if_pos hsrc, hval] at hpair; exact absurd hpair (by simp)
        | some vv => exact ⟨vv, rfl⟩
      have hp : p = (e.name, vv) := by
        rw [dynamicEntryPair, if_pos hsrc, hv] at hpair
        simpa using hpair.symm
      subst hp
      rw [List.filterMap_cons_some hpair, lookupMap]
      by_cases hn : e.name = n
      · rw [if_pos hn]
        constructor
        · intro hsome
          have hvv : vv = v := by simpa using hsome
          exact ⟨e, List.mem_cons_self _ _, hn, hsrc, by rw [hv, hvv]⟩
        · rintro ⟨e2, he2, hn2, hs2, hv2⟩
          rcases List.mem_cons.mp he2 with hhead | htail
          · subst hhead
            rw [hv] at hv2
            exact hv2
          · exfalso
            apply hname
            have hmem : e2.name ∈ List.map TopicConfigData.name rest :=
              List.mem_map_of_mem TopicConfigData.name htail
            rw [hn2, ← hn] at hmem
            exact hmem
      · rw [if_neg hn, ih hndr]
        constructor
        · rintro ⟨e2, he2, hrest⟩
          exact ⟨e2, List.mem_cons_of_mem _ he2, hrest⟩
        · rintro ⟨e2, he2, hn2, hs2, hv2⟩
          rcases List.mem_cons.mp he2 with hhead | htail
          · subst hhead
            exact absurd hn2 hn
          · exact ⟨e2, htail, hn2, hs2, hv2⟩

theorem buildConfigMap_eq_filterMap (entries : List TopicConfigData)
    (hnd : (entries.map TopicConfigData.name).Nodup) :
    buildConfigMap entries = entries.filterMap dynamicEntryPair := by
  rw [buildConfigMap, foldl_configMapStep entries [] hnd (fun _ _ => rfl)]
  rfl

/-! ## Claim theorems -/

/-- C1: the spec says a topic-settings update re-reads the settings after the
batch was submitted and returns an error diagnostic whenever a submitted
setting's remote value diverges from the requested one.  The code computes
the divergent set and builds that diagnostic with diag.Errorf at
resource_kafka_topic.go lines 450-453, but discards the diagnostic instead of
returning it (a missing return), so the update returns success: here a batch
submitting retention.ms = 100 reads back 200, the divergent set is non-empty,
the batch was submitted, and the returned diagnostics are still nil. -/
theorem kafkaTopicUpdate_divergence_diagnostic_discarded :
    (kafkaTopicUpdate [paramConfigs] [] [("retention.ms".toList, "100".toList)]
        ⟨true, .ok [⟨"retention.ms".toList, some "200".toList,
          ConfigSource.DYNAMIC_TOPIC_CONFIG⟩]⟩).outdatedTopicSettings
      = ["retention.ms".toList] ∧
    (kafkaTopicUpdate [paramConfigs] [] [("retention.ms".toList, "100".toList)]
        ⟨true, .ok [⟨"retention.ms".toList, some "200".toList,
          ConfigSource.DYNAMIC_TOPIC_CONFIG⟩]⟩).remoteMutationCalled = true ∧
    (kafkaTopicUpdate [paramConfigs] [] [("retention.ms".toList, "100".toList)]
        ⟨true, .ok [⟨"retention.ms".toList, some "200".toList,
          ConfigSource.DYNAMIC_TOPIC_CONFIG⟩]⟩).diagErr = none := by
  decide

/-- C2: on a topic update whose config block changed, whenever some key of
the old config map is absent from the new one, the update returns an error
diagnostic and the remote batch-update call is never issued. -/
theorem kafkaTopicUpdate_rejects_removed_keys
    (changedFields : List GoStr) (old new : SettingsMap) (env : TopicUpdateEnv)
    (hcfg : hasChange changedFields paramConfigs = true)
    (k v : GoStr) (hk : (k, v) ∈ old) (hmiss : lookupMap new k = none) :
    (kafkaTopicUpdate changedFields old new env).diagErr.isSome = true ∧
    (kafkaTopicUpdate changedFields old new env).remoteMutationCalled = false := by
  cases hg : hasChangesExcept changedFields [paramCredentials, paramConfigs] with
  | true => simp [kafkaTopicUpdate, hg]
  | false =>
    have hrem : old.any (fun p => (lookupMap new p.1).isNone) = true := by
      rw [List.any_eq_true]
      exact ⟨(k, v), hk, by simp [hmiss]⟩
    simp [kafkaTopicUpdate, hg, hcfg, hrem]

theorem kafkaTopicUpdate_rejects_removed_keys_witness :
    (kafkaTopicUpdate [paramConfigs] [("retention.ms".toList, "100".toList)] []
        ⟨true, .ok []⟩).diagErr.isSome = true ∧
    (kafkaTopicUpdate [paramConfigs] [("retention.ms".toList, "100".toList)] []
        ⟨true, .ok []⟩).remoteMutationCalled = false :=
  kafkaTopicUpdate_rejects_removed_keys [paramConfigs]
    [("retention.ms".toList, "100".toList)] [] ⟨true, .ok []⟩ (by decide)
    "retention.ms".toList "100".toList (by decide) (by decide)

/-- C3: on a topic update whose config block changed and with no removed
keys, when every changed or added setting is in the allow-list the submitted
batch is exactly the changed or added settings with their new values and the
remote call is issued; when some changed or added setting is outside the
allow-list the update returns the read-only-setting error before any remote
call; and the allow-list has exactly eleven entries. -/
theorem kafkaTopicUpdate_batch_exactly_changed_settings
    (changedFields : List GoStr) (old new : SettingsMap) (env : TopicUpdateEnv)
    (hguard : hasChangesExcept changedFields [paramCredentials, paramConfigs] = false)
    (hcfg : hasChange changedFields paramConfigs = true)
    (hnorem : old.any (fun p => (lookupMap new p.1).isNone) = false) :
    editableTopicSettings.length = 11 ∧
    ((∀ p ∈ new, topicSettingChanged old p = true →
        stringInSlice p.1 editableTopicSettings false = true) →
      (kafkaTopicUpdate changedFields old new env).submittedBatch
          = new.filter (topicSettingChanged old) ∧
      (kafkaTopicUpdate changedFields old new env).remoteMutationCalled = true) ∧
    ((∃ p ∈ new, topicSettingChanged old p = true ∧
        stringInSlice p.1 editableTopicSettings false = false) →
      (∃ m, (kafkaTopicUpdate changedFields old new env).diagErr
          = some (.readOnlySetting m)) ∧
      (kafkaTopicUpdate changedFields old new env).remoteMutationCalled = false) := by
  refine ⟨by decide, ?_, ?_⟩
  · intro hall
    have hb := buildTopicSettingsUpdateBatch_ok old new hall
    cases henv : env.updateSucceeds <;>
      cases hr : loadTopicConfigs env.rereadConfigs <;>
        simp [kafkaTopicUpdate, hguard, hcfg, hnorem, hb, henv, hr]
  · intro hex
    obtain ⟨m, hm⟩ := buildTopicSettingsUpdateBatch_error old new hex
    refine ⟨⟨m, ?_⟩, ?_⟩ <;> simp [kafkaTopicUpdate, hguard, hcfg, hnorem, hm]

theorem kafkaTopicUpdate_batch_exactly_changed_settings_witness :
    (kafkaTopicUpdate [paramConfigs] [("retention.ms".toList, "100".toList)]
        [("retention.ms".toList, "200".toList), ("segment.ms".toList, "5".toList)]
        ⟨true, .ok []⟩).submittedBatch
      = [("retention.ms".toList, "200".toList), ("segment.ms".toList, "5".toList)].filter
          (topicSettingChanged [("retention.ms".toList, "100".toList)]) ∧
    (kafkaTopicUpdate [paramConfigs] [("retention.ms".toList, "100".toList)]
        [("retention.ms".toList, "200".toList), ("segment.ms".toList, "5".toList)]
        ⟨true, .ok []⟩).remoteMutationCalled = true :=
  (kafkaTopicUpdate_batch_exactly_changed_settings [paramConfigs]
    [("retention.ms".toList, "100".toList)]
    [("retention.ms".toList, "200".toList), ("segment.ms".toList, "5".toList)]
    ⟨true, .ok []⟩ (by decide) (by decide) (by decide)).2.1 (by decide)

/-- C4: on a read of a topic or of an ACL, a remote fetch failing with HTTP
404 on a resource that is not newly created clears the resource id and
returns success, while on a newly created resource the same 404 is returned
as an error. -/
theorem read_notFound_clears_state_unless_new
    (clusterId topicName : GoStr) (acl : Acl) (isNew : Bool)
    (configsList : Except Unit (List TopicConfigData)) (pid : GoStr) :
    (isNew = false →
      readTopicAndSetAttributes clusterId topicName isNew (.error (some 404)) configsList
        = ⟨none, true, none, none⟩ ∧
      readAclAndSetAttributes clusterId acl isNew (.ok pid) (.error (some 404))
        = ⟨none, true, true, false, none, none⟩) ∧
    (isNew = true →
      (readTopicAndSetAttributes clusterId topicName isNew (.error (some 404)) configsList).err
        = some (.fetchFailed (some 404)) ∧
      (readAclAndSetAttributes clusterId acl isNew (.ok pid) (.error (some 404))).err
        = some (.fetchFailed (some 404))) := by
  constructor
  · rintro rfl
    exact ⟨by simp [readTopicAndSetAttributes], by simp [readAclAndSetAttributes]⟩
  · rintro rfl
    exact ⟨by simp [readTopicAndSetAttributes], by simp [readAclAndSetAttributes]⟩

theorem read_notFound_clears_state_unless_new_witness :
    readTopicAndSetAttributes "lkc-1".toList "orders".toList false
        (.error (some 404)) (.ok []) = ⟨none, true, none, none⟩ ∧
    readAclAndSetAttributes "lkc-1".toList
        ⟨"TOPIC".toList, "orders".toList, "LITERAL".toList, "User:sa-abc".toList,
         "*".toList, "READ".toList, "ALLOW".toList⟩ false (.ok "User:12345".toList)
        (.error (some 404)) = ⟨none, true, true, false, none, none⟩ :=
  (read_notFound_clears_state_unless_new "lkc-1".toList "orders".toList
    ⟨"TOPIC".toList, "orders".toList, "LITERAL".toList, "User:sa-abc".toList,
     "*".toList, "READ".toList, "ALLOW".toList⟩ false (.ok [])
    "User:12345".toList).1 rfl

/-- C5: a topic update with any changed field other than the credentials
block or the config map returns an error without issuing the remote
batch-update call, and an ACL update with any changed field other than the
credentials block returns an error without issuing any remote call. -/
theorem update_rejects_changes_outside_mutable_fields
    (changedTopicFields changedAclFields : List GoStr) (old new : SettingsMap)
    (env : TopicUpdateEnv) (clusterId : GoStr) (acl : Acl) (isNew : Bool)
    (principalConv : Except Unit GoStr)
    (listAcls : Except (Option Nat) (List RemoteAclData))
    (ht : hasChangesExcept changedTopicFields [paramCredentials, paramConfigs] = true)
    (ha : hasChangesExcept changedAclFields [paramCredentials] = true) :
    (kafkaTopicUpdate changedTopicFields old new env).diagErr
        = some .nonUpdatableField ∧
    (kafkaTopicUpdate changedTopicFields old new env).remoteMutationCalled = false ∧
    (kafkaAclUpdate changedAclFields clusterId acl isNew principalConv listAcls).diagErr
        = some .nonUpdatableField ∧
    (kafkaAclUpdate changedAclFields clusterId acl isNew principalConv listAcls).remoteCalled
        = false := by
  refine ⟨?_, ?_, ?_, ?_⟩ <;> simp [kafkaTopicUpdate, kafkaAclUpdate, ht, ha]

theorem update_rejects_changes_outside_mutable_fields_witness :
    (kafkaTopicUpdate ["topic_name".toList] [] [] ⟨true, .ok []⟩).diagErr
        = some .nonUpdatableField ∧
    (kafkaTopicUpdate ["topic_name".toList] [] [] ⟨true, .ok []⟩).remoteMutationCalled = false ∧
    (kafkaAclUpdate ["host".toList] [] ⟨[], [], [], [], [], [], []⟩ false (.ok []) (.ok [])).diagErr
        = some .nonUpdatableField ∧
    (kafkaAclUpdate ["host".toList] [] ⟨[], [], [], [], [], [], []⟩ false (.ok []) (.ok [])).remoteCalled
        = false :=
  update_rejects_changes_outside_mutable_fields ["topic_name".toList] ["host".toList]
    [] [] ⟨true, .ok []⟩ [] ⟨[], [], [], [], [], [], []⟩ false (.ok []) (.ok [])
    (by decide) (by decide)

/-- C6: for a cluster id and a topic name free of slashes, splitting the
composite topic identifier on the slash yields exactly the original two
parts and the import parser recovers them; any identifier whose split does
not have exactly two parts makes the import parser fail with the format
error. -/
theorem topicId_roundtrip_and_format_check :
    (∀ c t : GoStr, '/' ∉ c → '/' ∉ t →
      goSplit '/' (createKafkaTopicId c t) = [c, t] ∧
      kafkaTopicImportParse (createKafkaTopicId c t) = .ok (c, t)) ∧
    (∀ s : GoStr, (goSplit '/' s).length ≠ 2 →
      kafkaTopicImportParse s = .error ()) := by
  constructor
  · intro c t hc ht
    have hsplit : goSplit '/' (createKafkaTopicId c t) = [c, t] := by
      rw [createKafkaTopicId, goSplit_append '/' c t hc, goSplit_no_sep '/' t ht]
    exact ⟨hsplit, by simp [kafkaTopicImportParse, hsplit]⟩
  · intro s hs
    simp [kafkaTopicImportParse, hs]

theorem topicId_roundtrip_and_format_check_witness :
    goSplit '/' (createKafkaTopicId "lkc-1".toList "orders".toList)
      = ["lkc-1".toList, "orders".toList] ∧
    kafkaTopicImportParse (createKafkaTopicId "lkc-1".toList "orders".toList)
      = .ok ("lkc-1".toList, "orders".toList) :=
  topicId_roundtrip_and_format_check.1 "lkc-1".toList "orders".toList
    (by decide) (by decide)

/-- C7: for an ACL whose seven fields are free of hashes and whose four
enumeration fields are accepted values, deserializing the hash-joined
seven-tuple produced by the identifier serializer recovers the ACL; any
string whose split on the hash does not have exactly seven parts makes
deserialization fail with the format error. -/
theorem aclId_roundtrip_and_format_check :
    (∀ a : Acl, aclEnumsAccepted a = true →
      '#' ∉ a.resourceType → '#' ∉ a.resourceName → '#' ∉ a.patternType →
      '#' ∉ a.principal → '#' ∉ a.host → '#' ∉ a.operation → '#' ∉ a.permission →
      deserializeAcl (serializeAclTuple a) = .ok a) ∧
    (∀ s : GoStr, (goSplit '#' s).length ≠ 7 →
      deserializeAcl s = .error .invalidFormat) := by
  constructor
  · intro a hacc h1 h2 h3 h4 h5 h6 h7
    have hsplit : goSplit '#' (serializeAclTuple a)
        = [a.resourceType, a.resourceName, a.patternType, a.principal,
           a.host, a.operation, a.permission] := by
      rw [serializeAclTuple]
      refine goSplit_goJoin '#' _ (by simp) ?_
      intro p hp
      simp only [List.mem_cons, List.not_mem_nil, or_false] at hp
      rcases hp with rfl | rfl | rfl | rfl | rfl | rfl | rfl <;> assumption
    rw [aclEnumsAccepted, Bool.and_eq_true, Bool.and_eq_true, Bool.and_eq_true] at hacc
    obtain ⟨⟨⟨hrt, hpt⟩, hop⟩, hpm⟩ := hacc
    simp at hrt hpt hop hpm
    simp [deserializeAcl, hsplit, hrt, hpt, hop, hpm]
  · intro s hs
    simp [deserializeAcl, hs]

theorem aclId_roundtrip_and_format_check_witness :
    deserializeAcl (serializeAclTuple ⟨"TOPIC".toList, "orders".toList,
        "LITERAL".toList, "User:sa-abc".toList, "*".toList, "READ".toList,
        "ALLOW".toList⟩)
      = .ok ⟨"TOPIC".toList, "orders".toList, "LITERAL".toList,
          "User:sa-abc".toList, "*".toList, "READ".toList, "ALLOW".toList⟩ :=
  aclId_roundtrip_and_format_check.1
    ⟨"TOPIC".toList, "orders".toList, "LITERAL".toList, "User:sa-abc".toList,
     "*".toList, "READ".toList, "ALLOW".toList⟩
    (by decide) (by decide) (by decide) (by decide) (by decide) (by decide)
    (by decide) (by decide)

/-- C8: an ACL read whose principal in state starts neither with User:sa- nor
with User:u- clears the resource id and returns success without issuing any
remote call (given the four enumeration fields extract successfully). -/
theorem aclRead_clears_state_on_integer_principal
    (clusterId : GoStr) (acl : Acl) (isNew : Bool)
    (principalConv : Except Unit GoStr)
    (listAcls : Except (Option Nat) (List RemoteAclData))
    (hvalid : aclEnumsAccepted acl = true)
    (hp : principalUsesResourceId acl.principal = false) :
    kafkaAclRead clusterId acl isNew principalConv listAcls
      = ⟨none, true, false, false, none, none⟩ := by
  simp [kafkaAclRead, extractAcl, hvalid, hp]

theorem aclRead_clears_state_on_integer_principal_witness :
    kafkaAclRead "lkc-1".toList
        ⟨"TOPIC".toList, "orders".toList, "LITERAL".toList, "User:12345".toList,
         "*".toList, "READ".toList, "ALLOW".toList⟩ false (.ok []) (.ok [])
      = ⟨none, true, false, false, none, none⟩ :=
  aclRead_clears_state_on_integer_principal "lkc-1".toList
    ⟨"TOPIC".toList, "orders".toList, "LITERAL".toList, "User:12345".toList,
     "*".toList, "READ".toList, "ALLOW".toList⟩ false (.ok []) (.ok [])
    (by decide) (by decide)

/-- C9: when the remote ACL list call succeeds, the read errors on zero or on
more than one matched ACL and writes state only on exactly one match, storing
as principal the request's resource-id form rather than the matched entry's
server-side form. -/
theorem aclRead_unique_match_and_request_principal
    (clusterId : GoStr) (acl : Acl) (isNew : Bool) (pid : GoStr)
    (acls : List RemoteAclData) :
    (acls.length = 0 →
      (readAclAndSetAttributes clusterId acl isNew (.ok pid) (.ok acls)).err
          = some .noAclsMatched ∧
      (readAclAndSetAttributes clusterId acl isNew (.ok pid) (.ok acls)).attributesSet
          = false) ∧
    (acls.length > 1 →
      (readAclAndSetAttributes clusterId acl isNew (.ok pid) (.ok acls)).err
          = some .multipleAclsMatched ∧
      (readAclAndSetAttributes clusterId acl isNew (.ok pid) (.ok acls)).attributesSet
          = false) ∧
    (acls.length = 1 →
      (readAclAndSetAttributes clusterId acl isNew (.ok pid) (.ok acls)).err = none ∧
      (readAclAndSetAttributes clusterId acl isNew (.ok pid) (.ok acls)).attributesSet
          = true ∧
      (readAclAndSetAttributes clusterId acl isNew (.ok pid) (.ok acls)).storedPrincipal
          = some acl.principal) := by
  refine ⟨?_, ?_, ?_⟩
  · intro h
    simp [readAclAndSetAttributes, h]
  · intro h
    have h0 : ¬ acls.length = 0 := by omega
    simp [readAclAndSetAttributes, h0, h]
  · intro h
    have h0 : ¬ acls.length = 0 := by omega
    have h1 : ¬ acls.length > 1 := by omega
    simp [readAclAndSetAttributes, h0, h1]

theorem aclRead_unique_match_and_request_principal_witness :
    (readAclAndSetAttributes "lkc-1".toList
        ⟨"TOPIC".toList, "orders".toList, "LITERAL".toList, "User:sa-abc".toList,
         "*".toList, "READ".toList, "ALLOW".toList⟩ false (.ok "User:12345".toList)
        (.ok [⟨"TOPIC".toList, "orders".toList, "LITERAL".toList,
          "User:12345".toList, "*".toList, "READ".toList, "ALLOW".toList⟩])).err
        = none ∧
    (readAclAndSetAttributes "lkc-1".toList
        ⟨"TOPIC".toList, "orders".toList, "LITERAL".toList, "User:sa-abc".toList,
         "*".toList, "READ".toList, "ALLOW".toList⟩ false (.ok "User:12345".toList)
        (.ok [⟨"TOPIC".toList, "orders".toList, "LITERAL".toList,
          "User:12345".toList, "*".toList, "READ".toList, "ALLOW".toList⟩])).attributesSet
        = true ∧
    (readAclAndSetAttributes "lkc-1".toList
        ⟨"TOPIC".toList, "orders".toList, "LITERAL".toList, "User:sa-abc".toList,
         "*".toList, "READ".toList, "ALLOW".toList⟩ false (.ok "User:12345".toList)
        (.ok [⟨"TOPIC".toList, "orders".toList, "LITERAL".toList,
          "User:12345".toList, "*".toList, "READ".toList, "ALLOW".toList⟩])).storedPrincipal
        = some "User:sa-abc".toList :=
  (aclRead_unique_match_and_request_principal "lkc-1".toList
    ⟨"TOPIC".toList, "orders".toList, "LITERAL".toList, "User:sa-abc".toList,
     "*".toList, "READ".toList, "ALLOW".toList⟩ false "User:12345".toList
    [⟨"TOPIC".toList, "orders".toList, "LITERAL".toList, "User:12345".toList,
      "*".toList, "READ".toList, "ALLOW".toList⟩]).2.2 rfl

/-- C10: for a successful topic-configs listing with distinct names, the
config map written to state holds a binding n to v exactly when some remote
entry has name n, source DYNAMIC_TOPIC_CONFIG and non-nil value v; entries
with any other source or a nil value are excluded. -/
theorem loadTopicConfigs_keeps_exactly_dynamic_topic_configs
    (entries : List TopicConfigData)
    (hnd : (entries.map TopicConfigData.name).Nodup)
    (m : SettingsMap) (hm : loadTopicConfigs (.ok entries) = .ok m) (n v : GoStr) :
    lookupMap m n = some v ↔
      ∃ e ∈ entries, e.name = n ∧
        e.source = ConfigSource.DYNAMIC_TOPIC_CONFIG ∧ e.value = some v := by
  have hm2 : m = buildConfigMap entries := by
    simpa [loadTopicConfigs, Except.map] using hm.symm
  subst hm2
  rw [buildConfigMap_eq_filterMap entries hnd]
  exact lookupMap_filterMap_dynamic entries hnd n v

theorem loadTopicConfigs_keeps_exactly_dynamic_topic_configs_witness :
    lookupMap [("a".toList, "1".toList)] "a".toList = some "1".toList ↔
      ∃ e ∈ [(⟨"a".toList, some "1".toList, ConfigSource.DYNAMIC_TOPIC_CONFIG⟩ : TopicConfigData),
             ⟨"b".toList, some "2".toList, ConfigSource.DEFAULT_CONFIG⟩,
             ⟨"c".toList, none, ConfigSource.DYNAMIC_TOPIC_CONFIG⟩],
        e.name = "a".toList ∧
        e.source = ConfigSource.DYNAMIC_TOPIC_CONFIG ∧ e.value = some "1".toList :=
  loadTopicConfigs_keeps_exactly_dynamic_topic_configs
    [⟨"a".toList, some "1".toList, ConfigSource.DYNAMIC_TOPIC_CONFIG⟩,
     ⟨"b".toList, some "2".toList, ConfigSource.DEFAULT_CONFIG⟩,
     ⟨"c".toList, none, ConfigSource.DYNAMIC_TOPIC_CONFIG⟩]
    (by decide) [("a".toList, "1".toList)] (by decide) "a".toList "1".toList

end ConfluentProvider
